import Mathlib

/-!
Shallow embedding of the browsetrace event-ingestion core
(src/server/internal/database/database.go and
src/server/internal/server/server.go) together with proofs about it.

Modelling conventions:
* Go strings are Lean `String`, nullable strings (`*string`) are
  `Option String`, `int64` is `Int`.
* The `map[string]any` JSON payload is a list of key/JSON-value pairs;
  `json.Marshal` / `json.Unmarshal` of such a value is a lossless
  round-trip, so the store keeps the value itself for `data_json`.
* The SQLite `events` table is a list of rows plus a counter for the
  `INTEGER PRIMARY KEY` column.  The two `CREATE UNIQUE INDEX`
  statements of `createTables` become explicit conflict checks:
  `idx_input_field_session` on `(url, field_id, session_id)` covers all
  rows but, as in SQLite, rows with a NULL component never conflict;
  `idx_visible_text_session` on `(url, session_id)` covers only rows
  whose type is visible_text.
* A SQL transaction that rolls back is modelled by `InsertEvents`
  returning the original store next to the error.
-/

namespace BrowseTrace

/-- A JSON value, the element type of the schemaless `data` payload. -/
inductive JsonVal where
  | null
  | bool (b : Bool)
  | num (n : Int)
  | str (s : String)
  | arr (xs : List JsonVal)
  | obj (fs : List (String × JsonVal))

/-- The `map[string]any` payload of an event (`models.Event.Data`). -/
abbrev JsonData := List (String × JsonVal)

/-- Wire model `models.Event`: exactly the fields of the Go struct, in
source order; note there is no id field. -/
structure Event where
  ts_utc : Int
  ts_iso : String
  url : String
  title : Option String
  typ : String
  data : JsonData
  session_id : Option String
  field_id : Option String

/-- The five recognized event types (`validEventTypes` in `NewDatabase`). -/
def validEventTypes : List String :=
  ["navigate", "visible_text", "click", "input", "focus"]

/-- Membership test in `validEventTypes` (the Go map lookup). -/
def isValidType (t : String) : Bool :=
  validEventTypes.contains t

/-- Error kinds of `ValidateEvent`, one per `fmt.Errorf` site. -/
inductive ValErr where
  | emptyUrl
  | emptyType
  | invalidType
  | nonPositiveTs
  deriving DecidableEq, Repr

/-- `Database.ValidateEvent`: the four checks in source order. -/
def ValidateEvent (e : Event) : Except ValErr Unit :=
  if e.url = "" then .error .emptyUrl
  else if e.typ = "" then .error .emptyType
  else if isValidType e.typ = false then .error .invalidType
  else if e.ts_utc ≤ 0 then .error .nonPositiveTs
  else .ok ()

/-- A row of the `events` table. -/
structure Row where
  id : Int
  ts_utc : Int
  ts_iso : String
  url : String
  title : Option String
  typ : String
  data_json : JsonData
  session_id : Option String
  field_id : Option String

/-- The `events` table plus the next value of its integer primary key. -/
structure Store where
  rows : List Row
  nextId : Int

/-- The empty store. -/
def emptyStore : Store := { rows := [], nextId := 1 }

/-- Errors of the store operations. -/
inductive DbErr where
  | invalidEvent (v : ValErr)
  | uniqueViolation
  | invalidFilterType
  deriving DecidableEq, Repr

/-- SQLite unique-index comparison: two nullable columns collide only
when both are non-NULL and equal. -/
def sameNonNull (a b : Option String) : Bool :=
  match a, b with
  | some x, some y => x == y
  | _, _ => false

/-- The row built for an event by the INSERT column list, with `i` as
the assigned primary key. -/
def rowOfEvent (i : Int) (e : Event) : Row :=
  { id := i, ts_utc := e.ts_utc, ts_iso := e.ts_iso, url := e.url,
    title := e.title, typ := e.typ, data_json := e.data,
    session_id := e.session_id, field_id := e.field_id }

/-- Conflict on `idx_input_field_session` (all rows, NULLs distinct). -/
def inputKeyConflict (a b : Row) : Bool :=
  a.url == b.url && sameNonNull a.field_id b.field_id
    && sameNonNull a.session_id b.session_id

/-- Conflict on the partial index `idx_visible_text_session`
(visible_text rows only, NULLs distinct). -/
def visibleKeyConflict (a b : Row) : Bool :=
  a.typ == "visible_text" && b.typ == "visible_text"
    && a.url == b.url && sameNonNull a.session_id b.session_id

/-- Plain `INSERT INTO events(...) VALUES(...)`: fails on a unique-index
conflict, otherwise appends a fresh row and advances the key counter. -/
def insertRow (s : Store) (e : Event) : Except DbErr Store :=
  let r := rowOfEvent s.nextId e
  if s.rows.any (fun x => inputKeyConflict x r) then .error .uniqueViolation
  else if s.rows.any (fun x => visibleKeyConflict x r) then .error .uniqueViolation
  else .ok { rows := s.rows ++ [r], nextId := s.nextId + 1 }

/-- The DO UPDATE SET clause shared by both upserts: overwrite `ts_utc`,
`ts_iso`, `title`, `data_json` from the excluded row, keep the rest. -/
def updateRowFrom (e : Event) (x : Row) : Row :=
  { x with
    ts_utc := e.ts_utc
    ts_iso := e.ts_iso
    title := e.title
    data_json := e.data }

/-- Does stored row `x` collide with event `e` on the conflict target
`(url, field_id, session_id)` of the input upsert. -/
def matchesInputKey (e : Event) (x : Row) : Bool :=
  x.url == e.url && sameNonNull x.field_id e.field_id
    && sameNonNull x.session_id e.session_id

/-- Does stored row `x` collide with event `e` on the conflict target
`(url, session_id) WHERE type = 'visible_text'` of the visible_text
upsert. -/
def matchesVisibleKey (e : Event) (x : Row) : Bool :=
  x.typ == "visible_text" && x.url == e.url
    && sameNonNull x.session_id e.session_id

/-- Apply the DO UPDATE clause to the rows hit by the conflict target. -/
def updateMatching (p : Row → Bool) (e : Event) (l : List Row) : List Row :=
  l.map (fun x => if p x then updateRowFrom e x else x)

/-- The `upsertInputStmt` statement: on a conflict with the target index
run the DO UPDATE clause, otherwise behave as a plain insert (which may
still fail on the other unique index). -/
def upsertInput (s : Store) (e : Event) : Except DbErr Store :=
  if s.rows.any (matchesInputKey e) then
    .ok { s with rows := updateMatching (matchesInputKey e) e s.rows }
  else insertRow s e

/-- The `upsertVisibleTextStmt` statement, analogous. -/
def upsertVisible (s : Store) (e : Event) : Except DbErr Store :=
  if s.rows.any (matchesVisibleKey e) then
    .ok { s with rows := updateMatching (matchesVisibleKey e) e s.rows }
  else insertRow s e

/-- The three prepared statements of `InsertEvents`. -/
inductive WriteStrategy where
  | upsertInputStrat
  | upsertVisibleStrat
  | plainInsert
  deriving DecidableEq, Repr

/-- The statement-selection branch of the `InsertEvents` loop body. -/
def classify (e : Event) : WriteStrategy :=
  if e.typ == "input" && e.field_id.isSome && e.session_id.isSome then
    .upsertInputStrat
  else if e.typ == "visible_text" && e.session_id.isSome then
    .upsertVisibleStrat
  else
    .plainInsert

/-- Execution of the selected statement for one event. -/
def execEvent (s : Store) (e : Event) : Except DbErr Store :=
  match classify e with
  | .upsertInputStrat => upsertInput s e
  | .upsertVisibleStrat => upsertVisible s e
  | .plainInsert => insertRow s e

/-- The body of the `InsertEvents` loop over the open transaction:
validate, then execute the selected statement; the first error aborts. -/
def insertEventsAux (s : Store) : List Event → Except DbErr Store
  | [] => .ok s
  | e :: rest =>
    match ValidateEvent e with
    | .error v => .error (.invalidEvent v)
    | .ok _ =>
      match execEvent s e with
      | .error u => .error u
      | .ok s2 => insertEventsAux s2 rest

/-- `Database.InsertEvents`: one transaction over the whole batch; on
any error the transaction rolls back, so the original store is kept. -/
def InsertEvents (s : Store) (events : List Event) : Store × Option DbErr :=
  match insertEventsAux s events with
  | .ok s2 => (s2, none)
  | .error err => (s, some err)

/-- `database.EventFilter`. -/
structure EventFilter where
  eventType : Option String
  sinceUTC : Option Int
  untilUTC : Option Int
  limit : Int

/-- The WHERE clause built by `GetEvents`: all supplied filters ANDed. -/
def matchesFilter (f : EventFilter) (r : Row) : Bool :=
  (match f.eventType with
   | some t => r.typ == t
   | none => true)
  && (match f.sinceUTC with
      | some a => decide (a ≤ r.ts_utc)
      | none => true)
  && (match f.untilUTC with
      | some b => decide (r.ts_utc ≤ b)
      | none => true)

/-- Insert a row into a list that is ordered by `ts_utc` descending,
keeping earlier rows first among equal timestamps. -/
def insertDesc (r : Row) : List Row → List Row
  | [] => [r]
  | x :: xs => if x.ts_utc < r.ts_utc then r :: x :: xs else x :: insertDesc r xs

/-- ORDER BY `ts_utc` DESC. -/
def sortDesc : List Row → List Row
  | [] => []
  | x :: xs => insertDesc x (sortDesc xs)

/-- The row-to-wire conversion done by the scan loop of `GetEvents`:
the id column is read but dropped. -/
def rowToEvent (r : Row) : Event :=
  { ts_utc := r.ts_utc, ts_iso := r.ts_iso, url := r.url, title := r.title,
    typ := r.typ, data := r.data_json, session_id := r.session_id,
    field_id := r.field_id }

/-- Rows selected by the query of `GetEvents`: WHERE, then ORDER BY,
then LIMIT; the LIMIT clause is added only when the limit is positive. -/
def queryRows (s : Store) (f : EventFilter) : List Row :=
  let sorted := sortDesc (s.rows.filter (matchesFilter f))
  if 0 < f.limit then sorted.take f.limit.toNat else sorted

/-- `Database.GetEvents`: reject an unrecognized type filter, otherwise
run the query and convert each row. -/
def GetEvents (s : Store) (f : EventFilter) : Except DbErr (List Event) :=
  match f.eventType with
  | some t =>
    if isValidType t = false then .error .invalidFilterType
    else .ok ((queryRows s f).map rowToEvent)
  | none => .ok ((queryRows s f).map rowToEvent)

/-! The HTTP layer of `handleGetEvents` (server.go). -/

/-- `url.Values.Get`: the first value bound to the key, or the empty
string when the key is absent. -/
def queryGet (params : List (String × String)) (key : String) : String :=
  match params.find? (fun p => p.1 == key) with
  | some p => p.2
  | none => ""

/-- Model of `strconv.ParseInt` / `strconv.Atoi` on decimal input. -/
def parseDecInt (s : String) : Option Int :=
  s.toInt?

/-- Outcome of one GET /events request: the HTTP status and, on 200,
the decoded body. -/
structure HttpResponse where
  status : Nat
  events : Option (List Event)

/-- `Server.handleGetEvents`: build the filter from the query string
(an empty-valued parameter counts as absent), answering 400 on a bad
`since`, `until` or `limit`, 500 on a store error, 200 otherwise. -/
def handleGetEvents (s : Store) (params : List (String × String)) : HttpResponse :=
  let typeParam := queryGet params "type"
  let eventType : Option String := if typeParam == "" then none else some typeParam
  let sinceParam := queryGet params "since"
  match (if sinceParam == "" then some none else (parseDecInt sinceParam).map some :
      Option (Option Int)) with
  | none => { status := 400, events := none }
  | some sinceUTC =>
    let untilParam := queryGet params "until"
    match (if untilParam == "" then some none else (parseDecInt untilParam).map some :
        Option (Option Int)) with
    | none => { status := 400, events := none }
    | some untilUTC =>
      let limitParam := queryGet params "limit"
      match (if limitParam == "" then some 100 else
          match parseDecInt limitParam with
          | some l => if l ≤ 0 then none else some l
          | none => none : Option Int) with
      | none => { status := 400, events := none }
      | some limit =>
        match GetEvents s { eventType, sinceUTC, untilUTC, limit } with
        | .error _ => { status := 500, events := none }
        | .ok evs => { status := 200, events := some evs }

/-! Helper lemmas. -/

/-- Both upsert key predicates ignore the fields overwritten by the DO
UPDATE clause. -/
theorem matchesInputKey_updateRowFrom (e e2 : Event) (x : Row) :
    matchesInputKey e (updateRowFrom e2 x) = matchesInputKey e x := rfl

theorem matchesVisibleKey_updateRowFrom (e e2 : Event) (x : Row) :
    matchesVisibleKey e (updateRowFrom e2 x) = matchesVisibleKey e x := rfl

/-- In a list with at most one element satisfying `p`, two members both
satisfying `p` are equal. -/
theorem mem_eq_of_countP_le_one {p : Row → Bool} {l : List Row}
    (h : l.countP p ≤ 1) {y z : Row} (hy : y ∈ l) (hz : z ∈ l)
    (hpy : p y = true) (hpz : p z = true) : y = z := by
  induction l with
  | nil => cases hy
  | cons a l ih =>
    rw [List.countP_cons] at h
    rcases List.mem_cons.mp hy with rfl | hy2
    · rcases List.mem_cons.mp hz with rfl | hz2
      · rfl
      · exfalso
        have h1 : 0 < l.countP p := List.countP_pos_iff.mpr ⟨z, hz2, hpz⟩
        rw [if_pos hpy] at h
        omega
    · rcases List.mem_cons.mp hz with rfl | hz2
      · exfalso
        have h1 : 0 < l.countP p := List.countP_pos_iff.mpr ⟨y, hy2, hpy⟩
        rw [if_pos hpz] at h
        omega
      · exact ih (by omega) hy2 hz2

/-- C2: `ValidateEvent` succeeds exactly on events with a non-empty
url, a non-empty type belonging to the five-member enum, and a strictly
positive `ts_utc`; otherwise the error kind is fixed by the first
failing check in the order url non-empty, type non-empty, type in enum,
`ts_utc` positive.  The function is pure, so it has no side effects. -/
theorem validateEvent_spec (e : Event) :
    (ValidateEvent e = .ok () ↔
      (e.url ≠ "" ∧ e.typ ≠ "" ∧ isValidType e.typ = true ∧ 0 < e.ts_utc))
  ∧ (ValidateEvent e = .error .emptyUrl ↔ e.url = "")
  ∧ (ValidateEvent e = .error .emptyType ↔ (e.url ≠ "" ∧ e.typ = ""))
  ∧ (ValidateEvent e = .error .invalidType ↔
      (e.url ≠ "" ∧ e.typ ≠ "" ∧ isValidType e.typ = false))
  ∧ (ValidateEvent e = .error .nonPositiveTs ↔
      (e.url ≠ "" ∧ e.typ ≠ "" ∧ isValidType e.typ = true ∧ e.ts_utc ≤ 0)) := by
  unfold ValidateEvent
  split_ifs with h1 h2 h3 h4 <;> simp_all

/-- C6: ignoring storage faults (absent from the model), `GetEvents`
errors exactly when a type filter is supplied whose value is not one of
the five recognized event types; with a recognized or absent type
filter it returns a possibly empty list, never an error. -/
theorem getEvents_error_iff (s : Store) (f : EventFilter) :
    ((∃ err, GetEvents s f = .error err) ↔
      (∃ t, f.eventType = some t ∧ isValidType t = false))
  ∧ (∀ err, GetEvents s f = .error err → err = .invalidFilterType)
  ∧ ((∀ t, f.eventType = some t → isValidType t = true) →
      ∃ l, GetEvents s f = .ok l) := by
  unfold GetEvents
  cases hty : f.eventType with
  | none => simp
  | some t =>
    by_cases hv : isValidType t = false
    · simp only [hv, if_true]
      refine ⟨by simp [hv], by simp, ?_⟩
      intro h
      exact absurd (h t rfl) (by simp [hv])
    · simp [hv]

/-- If a prefix run of the batch loop reaches a final store, every
event of the batch passed `ValidateEvent`. -/
theorem insertEventsAux_ok_valid :
    ∀ {events : List Event} {s s2 : Store},
      insertEventsAux s events = .ok s2 → ∀ e ∈ events, ValidateEvent e = .ok () := by
  intro events
  induction events with
  | nil =>
    intro s s2 h e he
    cases he
  | cons a l ih =>
    intro s s2 h e he
    unfold insertEventsAux at h
    cases hv : ValidateEvent a with
    | error v => rw [hv] at h; cases h
    | ok u =>
      rw [hv] at h
      cases hex : execEvent s a with
      | error err => rw [hex] at h; cases h
      | ok s3 =>
        rw [hex] at h
        rcases List.mem_cons.mp he with rfl | hel
        · cases u; exact hv
        · exact ih h e hel

/-- C1: `InsertEvents` is all-or-nothing: a batch containing an event
rejected by `ValidateEvent` makes the whole call fail with the original
store kept (the transaction rolls back, even if earlier events of the
batch were already written inside it); any failing call keeps the
original store; and a successful call implies every event of the batch
passed validation and was written. -/
theorem insertEvents_allOrNothing (s : Store) (events : List Event) :
    ((∃ e ∈ events, ValidateEvent e ≠ .ok ()) →
      ∃ err, InsertEvents s events = (s, some err))
  ∧ (∀ err, (InsertEvents s events).2 = some err → (InsertEvents s events).1 = s)
  ∧ ((InsertEvents s events).2 = none → ∀ e ∈ events, ValidateEvent e = .ok ()) := by
  refine ⟨?_, ?_, ?_⟩
  · rintro ⟨e, he, hne⟩
    cases haux : insertEventsAux s events with
    | error err => exact ⟨err, by unfold InsertEvents; rw [haux]⟩
    | ok s2 => exact absurd (insertEventsAux_ok_valid haux e he) hne
  · intro err h
    cases haux : insertEventsAux s events with
    | error e2 => unfold InsertEvents; rw [haux]
    | ok s2 =>
      have hins : InsertEvents s events = (s2, none) := by
        unfold InsertEvents; rw [haux]
      rw [hins] at h
      cases h
  · intro h
    cases haux : insertEventsAux s events with
    | error e2 =>
      have hins : InsertEvents s events = (s, some e2) := by
        unfold InsertEvents; rw [haux]
      rw [hins] at h
      cases h
    | ok s2 => exact insertEventsAux_ok_valid haux

/-! Lemmas about the DO UPDATE map and the statement dispatch. -/

theorem countP_updateMatching (p : Row → Bool) (e : Event)
    (hp : ∀ x, p (updateRowFrom e x) = p x) (l : List Row) :
    (updateMatching p e l).countP p = l.countP p := by
  induction l with
  | nil => rfl
  | cons a l ih =>
    unfold updateMatching at ih ⊢
    rw [List.map_cons, List.countP_cons, List.countP_cons, ih]
    by_cases ha : p a = true
    · rw [if_pos ha, hp a, ha]
    · rw [if_neg ha]

theorem updateMatching_props (e : Event) (p : Row → Bool)
    (hp : ∀ x, p (updateRowFrom e x) = p x)
    (l : List Row) (hcnt : l.countP p ≤ 1)
    (r0 : Row) (hr0 : r0 ∈ l) (hp0 : p r0 = true) :
    (updateMatching p e l).countP p = 1
    ∧ (∀ x ∈ updateMatching p e l, p x = true → x = updateRowFrom e r0)
    ∧ (∀ x ∈ updateMatching p e l, p x = false → x ∈ l)
    ∧ (updateMatching p e l).length = l.length := by
  have hpos : 0 < l.countP p := List.countP_pos_iff.mpr ⟨r0, hr0, hp0⟩
  refine ⟨by rw [countP_updateMatching p e hp l]; omega, ?_, ?_, by
    simp [updateMatching]⟩
  · intro x hx hpx
    rcases List.mem_map.mp hx with ⟨y, hy, hxy⟩
    by_cases hpy : p y = true
    · rw [if_pos hpy] at hxy
      rw [mem_eq_of_countP_le_one hcnt hy hr0 hpy hp0] at hxy
      exact hxy.symm
    · rw [if_neg hpy] at hxy
      rw [← hxy] at hpx
      exact absurd hpx hpy
  · intro x hx hpx
    rcases List.mem_map.mp hx with ⟨y, hy, hxy⟩
    by_cases hpy : p y = true
    · rw [if_pos hpy] at hxy
      rw [← hxy, hp y, hpy] at hpx
      cases hpx
    · rw [if_neg hpy] at hxy
      rw [← hxy]
      exact hy

/-- The first dispatch branch of the `InsertEvents` loop. -/
theorem classify_input (e : Event) (htyp : e.typ = "input")
    (hf : e.field_id.isSome = true) (hsid : e.session_id.isSome = true) :
    classify e = .upsertInputStrat := by
  unfold classify
  rw [htyp]
  simp [hf, hsid]

/-- The second dispatch branch of the `InsertEvents` loop. -/
theorem classify_visible (e : Event) (htyp : e.typ = "visible_text")
    (hsid : e.session_id.isSome = true) :
    classify e = .upsertVisibleStrat := by
  unfold classify
  rw [htyp]
  simp [hsid]

/-- One-event batches: `InsertEvents` of a valid single event is the
execution of its selected statement, with rollback on error. -/
theorem insertEvents_single (s : Store) (e : Event)
    (hv : ValidateEvent e = .ok ()) :
    InsertEvents s [e] = match execEvent s e with
      | .ok s2 => (s2, none)
      | .error err => (s, some err) := by
  unfold InsertEvents insertEventsAux
  rw [hv]
  cases hex : execEvent s e <;> simp [insertEventsAux]

/-- On the row built for an event, the all-rows unique-index check of a
plain insert coincides with the input-upsert conflict target. -/
theorem inputKeyConflict_rowOfEvent (x : Row) (i : Int) (e : Event) :
    inputKeyConflict x (rowOfEvent i e) = matchesInputKey e x := by
  unfold inputKeyConflict matchesInputKey rowOfEvent sameNonNull
  cases e.field_id <;> cases x.field_id <;>
    cases e.session_id <;> cases x.session_id <;>
    simp [BEq.comm]

/-- A row built for an event that is not of type visible_text never
hits the partial visible_text index. -/
theorem visibleKeyConflict_rowOfEvent (x : Row) (i : Int) (e : Event)
    (htyp : e.typ ≠ "visible_text") :
    visibleKeyConflict x (rowOfEvent i e) = false := by
  unfold visibleKeyConflict rowOfEvent
  simp [htyp]

theorem matchesInputKey_rowOfEvent_self (i : Int) (e : Event)
    (hf : e.field_id.isSome = true) (hsid : e.session_id.isSome = true) :
    matchesInputKey e (rowOfEvent i e) = true := by
  unfold matchesInputKey rowOfEvent sameNonNull
  cases hfv : e.field_id with
  | none => rw [hfv] at hf; cases hf
  | some a =>
    cases hsv : e.session_id with
    | none => rw [hsv] at hsid; cases hsid
    | some b => simp

theorem sameNonNull_isSome_right {a b : Option String}
    (h : sameNonNull a b = true) : b.isSome = true := by
  unfold sameNonNull at h
  cases a <;> cases b <;> simp_all

/-- C4: when an upserted event hits an existing row on its dedup key
(the store holding at most one row for that key, as the unique index
guarantees), the call succeeds and afterwards exactly one row exists
for the key; its `ts_utc`, `ts_iso`, `title` and `data` equal the new
event's values while its `id`, `url`, `field_id` and `session_id` are
those of the existing row; other rows, the row count and the id counter
are untouched.  Stated for the input-event key and for the
visible_text-event key. -/
theorem upsert_conflict_semantics :
    (∀ (s : Store) (e : Event) (r0 : Row),
      e.typ = "input" → ValidateEvent e = .ok () →
      r0 ∈ s.rows → matchesInputKey e r0 = true →
      s.rows.countP (matchesInputKey e) ≤ 1 →
      (InsertEvents s [e]).2 = none
      ∧ (InsertEvents s [e]).1.rows.countP (matchesInputKey e) = 1
      ∧ (∀ x ∈ (InsertEvents s [e]).1.rows, matchesInputKey e x = true →
          x.ts_utc = e.ts_utc ∧ x.ts_iso = e.ts_iso ∧ x.title = e.title
          ∧ x.data_json = e.data ∧ x.id = r0.id ∧ x.url = r0.url
          ∧ x.field_id = r0.field_id ∧ x.session_id = r0.session_id)
      ∧ (∀ x ∈ (InsertEvents s [e]).1.rows, matchesInputKey e x = false →
          x ∈ s.rows)
      ∧ (InsertEvents s [e]).1.rows.length = s.rows.length
      ∧ (InsertEvents s [e]).1.nextId = s.nextId)
  ∧ (∀ (s : Store) (e : Event) (r0 : Row),
      e.typ = "visible_text" → ValidateEvent e = .ok () →
      r0 ∈ s.rows → matchesVisibleKey e r0 = true →
      s.rows.countP (matchesVisibleKey e) ≤ 1 →
      (InsertEvents s [e]).2 = none
      ∧ (InsertEvents s [e]).1.rows.countP (matchesVisibleKey e) = 1
      ∧ (∀ x ∈ (InsertEvents s [e]).1.rows, matchesVisibleKey e x = true →
          x.ts_utc = e.ts_utc ∧ x.ts_iso = e.ts_iso ∧ x.title = e.title
          ∧ x.data_json = e.data ∧ x.id = r0.id ∧ x.url = r0.url
          ∧ x.field_id = r0.field_id ∧ x.session_id = r0.session_id)
      ∧ (∀ x ∈ (InsertEvents s [e]).1.rows, matchesVisibleKey e x = false →
          x ∈ s.rows)
      ∧ (InsertEvents s [e]).1.rows.length = s.rows.length
      ∧ (InsertEvents s [e]).1.nextId = s.nextId) := by
  constructor
  · intro s e r0 htyp hv hr0 hkey hcnt
    have hdec := hkey
    simp only [matchesInputKey, Bool.and_eq_true] at hdec
    obtain ⟨⟨hu, hfld⟩, hsess⟩ := hdec
    have hf : e.field_id.isSome = true := sameNonNull_isSome_right hfld
    have hsid : e.session_id.isSome = true := sameNonNull_isSome_right hsess
    have hexec : execEvent s e = upsertInput s e := by
      unfold execEvent
      rw [classify_input e htyp hf hsid]
    have hany : s.rows.any (matchesInputKey e) = true :=
      List.any_eq_true.mpr ⟨r0, hr0, hkey⟩
    have hup : upsertInput s e =
        .ok { s with rows := updateMatching (matchesInputKey e) e s.rows } := by
      unfold upsertInput
      rw [if_pos hany]
    have hins : InsertEvents s [e] =
        ({ s with rows := updateMatching (matchesInputKey e) e s.rows }, none) := by
      rw [insertEvents_single s e hv, hexec, hup]
    obtain ⟨hc1, hc2, hc3, hc4⟩ :=
      updateMatching_props e (matchesInputKey e) (fun x => rfl) s.rows hcnt r0 hr0 hkey
    rw [hins]
    refine ⟨rfl, hc1, ?_, hc3, hc4, rfl⟩
    intro x hx hpx
    rw [hc2 x hx hpx]
    exact ⟨rfl, rfl, rfl, rfl, rfl, rfl, rfl, rfl⟩
  · intro s e r0 htyp hv hr0 hkey hcnt
    have hdec := hkey
    simp only [matchesVisibleKey, Bool.and_eq_true] at hdec
    obtain ⟨⟨hvt, hu⟩, hsess⟩ := hdec
    have hsid : e.session_id.isSome = true := sameNonNull_isSome_right hsess
    have hexec : execEvent s e = upsertVisible s e := by
      unfold execEvent
      rw [classify_visible e htyp hsid]
    have hany : s.rows.any (matchesVisibleKey e) = true :=
      List.any_eq_true.mpr ⟨r0, hr0, hkey⟩
    have hup : upsertVisible s e =
        .ok { s with rows := updateMatching (matchesVisibleKey e) e s.rows } := by
      unfold upsertVisible
      rw [if_pos hany]
    have hins : InsertEvents s [e] =
        ({ s with rows := updateMatching (matchesVisibleKey e) e s.rows }, none) := by
      rw [insertEvents_single s e hv, hexec, hup]
    obtain ⟨hc1, hc2, hc3, hc4⟩ :=
      updateMatching_props e (matchesVisibleKey e) (fun x => rfl) s.rows hcnt r0 hr0 hkey
    rw [hins]
    refine ⟨rfl, hc1, ?_, hc3, hc4, rfl⟩
    intro x hx hpx
    rw [hc2 x hx hpx]
    exact ⟨rfl, rfl, rfl, rfl, rfl, rfl, rfl, rfl⟩

/-- Events typed click always take the third dispatch branch. -/
theorem classify_click (e : Event) (htyp : e.typ = "click") :
    classify e = .plainInsert := by
  unfold classify
  rw [htyp]
  simp

/-- An event whose `field_id` is NULL can never hit the unique index
over `(url, field_id, session_id)`. -/
theorem matchesInputKey_of_field_none (e : Event) (hf : e.field_id = none)
    (x : Row) : matchesInputKey e x = false := by
  unfold matchesInputKey sameNonNull
  rw [hf]
  cases x.field_id <;> simp

/-- In the third dispatch branch the inserted row can never hit the
partial visible_text index: either the event is not of type
visible_text, or its `session_id` is NULL. -/
theorem visibleKeyConflict_rowOfEvent_plain (x : Row) (i : Int) (e : Event)
    (h : classify e = .plainInsert) :
    visibleKeyConflict x (rowOfEvent i e) = false := by
  by_cases htyp : e.typ = "visible_text"
  · unfold visibleKeyConflict rowOfEvent sameNonNull
    cases hs : e.session_id with
    | none => cases x.session_id <;> simp
    | some a =>
      exfalso
      rw [classify_visible e htyp (by rw [hs]; rfl)] at h
      cases h
  · exact visibleKeyConflict_rowOfEvent x i e htyp

/-- A plain insert without a unique-index collision appends one fresh
row and advances the id counter. -/
theorem insertEvents_plain (s : Store) (e : Event)
    (hcl : classify e = .plainInsert)
    (hnoc : ∀ x ∈ s.rows, matchesInputKey e x = false)
    (hv : ValidateEvent e = .ok ()) :
    InsertEvents s [e] =
      ({ rows := s.rows ++ [rowOfEvent s.nextId e], nextId := s.nextId + 1 },
        none) := by
  have hexec : execEvent s e = insertRow s e := by
    unfold execEvent
    rw [hcl]
  have h1 : s.rows.any (fun x => inputKeyConflict x (rowOfEvent s.nextId e))
      = false := by
    simp only [inputKeyConflict_rowOfEvent]
    exact List.any_eq_false.mpr fun x hx => by rw [hnoc x hx]; simp
  have h2 : s.rows.any (fun x => visibleKeyConflict x (rowOfEvent s.nextId e))
      = false :=
    List.any_eq_false.mpr fun x hx => by
      rw [visibleKeyConflict_rowOfEvent_plain x s.nextId e hcl]; simp
  have hrow : insertRow s e =
      .ok { rows := s.rows ++ [rowOfEvent s.nextId e], nextId := s.nextId + 1 } := by
    unfold insertRow
    rw [if_neg (by rw [h1]; simp), if_neg (by rw [h2]; simp)]
  rw [insertEvents_single s e hv, hexec, hrow]

/-- C3 (amended): the write strategy of each event is selected by
exactly the three-way classification of the source, and in the plain
branch a new row with the freshly assigned id is appended — even when a
row of identical content is already stored — provided the new row does
not collide with an existing row on the all-rows unique index over
`(url, field_id, session_id)` with all three components non-null. -/
theorem writeStrategy_classification (e : Event) (s : Store) :
    (classify e = .upsertInputStrat ↔
      (e.typ = "input" ∧ e.field_id.isSome = true ∧ e.session_id.isSome = true))
  ∧ (classify e = .upsertVisibleStrat ↔
      (¬(e.typ = "input" ∧ e.field_id.isSome = true ∧ e.session_id.isSome = true)
        ∧ e.typ = "visible_text" ∧ e.session_id.isSome = true))
  ∧ (classify e = .plainInsert ↔
      (¬(e.typ = "input" ∧ e.field_id.isSome = true ∧ e.session_id.isSome = true)
        ∧ ¬(e.typ = "visible_text" ∧ e.session_id.isSome = true)))
  ∧ (classify e = .upsertInputStrat → execEvent s e = upsertInput s e)
  ∧ (classify e = .upsertVisibleStrat → execEvent s e = upsertVisible s e)
  ∧ (classify e = .plainInsert → execEvent s e = insertRow s e)
  ∧ (classify e = .plainInsert → ValidateEvent e = .ok () →
      (∀ x ∈ s.rows, matchesInputKey e x = false) →
      InsertEvents s [e] =
        ({ rows := s.rows ++ [rowOfEvent s.nextId e], nextId := s.nextId + 1 },
          none)) := by
  refine ⟨?_, ?_, ?_, ?_, ?_, ?_, ?_⟩
  · unfold classify
    split_ifs with h1 h2 <;> simp_all [Bool.and_eq_true]
  · unfold classify
    split_ifs with h1 h2 <;> simp_all [Bool.and_eq_true]
  · unfold classify
    split_ifs with h1 h2 <;> simp_all [Bool.and_eq_true]
  · intro h
    unfold execEvent
    rw [h]
  · intro h
    unfold execEvent
    rw [h]
  · intro h
    unfold execEvent
    rw [h]
  · intro hcl hv hnoc
    exact insertEvents_plain s e hcl hnoc hv

/-- A navigate-typed event whose optional `field_id` and `session_id`
are both set: it takes the plain-insert branch. -/
def navConflictEvt : Event :=
  { ts_utc := 1, ts_iso := "1970-01-01T00:00:00.001Z",
    url := "https://a.example", title := none, typ := "navigate",
    data := [], session_id := some "s1", field_id := some "f1" }

/-- C3 counterexample: the plain-insert branch does not always create a
new row when an identical-content row exists — here the second insert
of `navConflictEvt` hits the all-rows unique index and the batch fails,
leaving the single old row. -/
theorem plainInsert_identical_row_counterexample :
    classify navConflictEvt = .plainInsert
    ∧ (InsertEvents emptyStore [navConflictEvt]).2 = none
    ∧ (InsertEvents (InsertEvents emptyStore [navConflictEvt]).1
        [navConflictEvt]).2 = some .uniqueViolation
    ∧ ((InsertEvents (InsertEvents emptyStore [navConflictEvt]).1
        [navConflictEvt]).1).rows.length = 1 :=
  ⟨rfl, rfl, rfl, rfl⟩

/-- C7 (amended): click events whose `field_id` is NULL — any url,
`session_id` and content, including two identical events — are each
appended as one new distinct row per `InsertEvents` call, never
collapsed and never rejected; the two appended rows carry distinct
ids. -/
theorem click_events_always_append (s : Store) (e1 e2 : Event)
    (ht1 : e1.typ = "click") (ht2 : e2.typ = "click")
    (hf1 : e1.field_id = none) (hf2 : e2.field_id = none)
    (hv1 : ValidateEvent e1 = .ok ()) (hv2 : ValidateEvent e2 = .ok ()) :
    (InsertEvents s [e1]).2 = none
    ∧ InsertEvents (InsertEvents s [e1]).1 [e2] =
        ({ rows := s.rows ++ [rowOfEvent s.nextId e1, rowOfEvent (s.nextId + 1) e2],
           nextId := s.nextId + 2 }, none)
    ∧ (rowOfEvent s.nextId e1).id ≠ (rowOfEvent (s.nextId + 1) e2).id := by
  have hstep1 : InsertEvents s [e1] =
      ({ rows := s.rows ++ [rowOfEvent s.nextId e1], nextId := s.nextId + 1 },
        none) :=
    insertEvents_plain s e1 (classify_click e1 ht1)
      (fun x _ => matchesInputKey_of_field_none e1 hf1 x) hv1
  have hstep2 := insertEvents_plain (InsertEvents s [e1]).1 e2
      (classify_click e2 ht2)
      (fun x _ => matchesInputKey_of_field_none e2 hf2 x) hv2
  rw [hstep1] at hstep2 ⊢
  refine ⟨rfl, ?_, by unfold rowOfEvent; simp⟩
  rw [hstep2]
  simp
  omega

/-- A click event carrying both a `field_id` and a `session_id`. -/
def clickConflictEvt : Event :=
  { ts_utc := 5, ts_iso := "1970-01-01T00:00:00.005Z",
    url := "https://b.example", title := some "B", typ := "click",
    data := [("x", JsonVal.num 1)], session_id := some "s1",
    field_id := some "f1" }

/-- C7 counterexample: with `field_id` and `session_id` both non-null,
the second identical click event does not append a new row — it hits
the all-rows unique index on `(url, field_id, session_id)`, the call
errors and the store still holds one row. -/
theorem click_events_unique_index_counterexample :
    classify clickConflictEvt = .plainInsert
    ∧ (InsertEvents emptyStore [clickConflictEvt]).2 = none
    ∧ (InsertEvents (InsertEvents emptyStore [clickConflictEvt]).1
        [clickConflictEvt]).2 = some .uniqueViolation
    ∧ ((InsertEvents (InsertEvents emptyStore [clickConflictEvt]).1
        [clickConflictEvt]).1).rows.length = 1 :=
  ⟨rfl, rfl, rfl, rfl⟩

/-- One input-event upsert against a store holding at most one row for
the dedup key: it succeeds, and afterwards exactly one row bears the
key, carrying the event's data and timestamp. -/
theorem upsertInput_step (s : Store) (e : Event)
    (htyp : e.typ = "input") (hf : e.field_id.isSome = true)
    (hsid : e.session_id.isSome = true) (hv : ValidateEvent e = .ok ())
    (hcnt : s.rows.countP (matchesInputKey e) ≤ 1) :
    (InsertEvents s [e]).2 = none
    ∧ (InsertEvents s [e]).1.rows.countP (matchesInputKey e) = 1
    ∧ (∀ x ∈ (InsertEvents s [e]).1.rows, matchesInputKey e x = true →
        x.data_json = e.data ∧ x.ts_utc = e.ts_utc) := by
  have hexec : execEvent s e = upsertInput s e := by
    unfold execEvent
    rw [classify_input e htyp hf hsid]
  by_cases hany : s.rows.any (matchesInputKey e) = true
  · rcases List.any_eq_true.mp hany with ⟨r0, hr0, hp0⟩
    have hup : upsertInput s e =
        .ok { s with rows := updateMatching (matchesInputKey e) e s.rows } := by
      unfold upsertInput
      rw [if_pos hany]
    have hins : InsertEvents s [e] =
        ({ s with rows := updateMatching (matchesInputKey e) e s.rows },
          none) := by
      rw [insertEvents_single s e hv, hexec, hup]
    obtain ⟨hc1, hc2, _, _⟩ :=
      updateMatching_props e (matchesInputKey e) (fun x => rfl) s.rows hcnt
        r0 hr0 hp0
    rw [hins]
    refine ⟨rfl, hc1, ?_⟩
    intro x hx hpx
    rw [hc2 x hx hpx]
    exact ⟨rfl, rfl⟩
  · have hzero : s.rows.countP (matchesInputKey e) = 0 :=
      List.countP_eq_zero.mpr (by
        intro a ha
        exact fun hpa => hany (List.any_eq_true.mpr ⟨a, ha, hpa⟩))
    have h1 : s.rows.any (fun x => inputKeyConflict x (rowOfEvent s.nextId e))
        = false := by
      simp only [inputKeyConflict_rowOfEvent]
      exact Bool.not_eq_true _ ▸ (by exact fun h => hany h : ¬_ = true)
    have h2 : s.rows.any
        (fun x => visibleKeyConflict x (rowOfEvent s.nextId e)) = false :=
      List.any_eq_false.mpr fun x hx => by
        rw [visibleKeyConflict_rowOfEvent x s.nextId e (by rw [htyp]; simp)]
        simp
    have hrow : insertRow s e =
        .ok { rows := s.rows ++ [rowOfEvent s.nextId e],
              nextId := s.nextId + 1 } := by
      unfold insertRow
      rw [if_neg (by rw [h1]; simp), if_neg (by rw [h2]; simp)]
    have hup : upsertInput s e = insertRow s e := by
      unfold upsertInput
      rw [if_neg (by rw [Bool.not_eq_true] at hany; rw [hany]; simp)]
    have hins : InsertEvents s [e] =
        ({ rows := s.rows ++ [rowOfEvent s.nextId e], nextId := s.nextId + 1 },
          none) := by
      rw [insertEvents_single s e hv, hexec, hup, hrow]
    rw [hins]
    have hself : matchesInputKey e (rowOfEvent s.nextId e) = true :=
      matchesInputKey_rowOfEvent_self s.nextId e hf hsid
    refine ⟨rfl, ?_, ?_⟩
    · rw [List.countP_append, hzero, List.countP_cons, if_pos hself]
      rfl
    · intro x hx hpx
      rcases List.mem_append.mp hx with hxl | hxr
      · exact absurd hpx (List.countP_eq_zero.mp hzero x hxl)
      · rcases List.mem_singleton.mp hxr with rfl
        exact ⟨rfl, rfl⟩

/-- The input-upsert conflict target only reads the key fields of the
incoming event. -/
theorem matchesInputKey_congr (e1 e2 : Event) (hu : e1.url = e2.url)
    (hf : e1.field_id = e2.field_id) (hs : e1.session_id = e2.session_id) :
    matchesInputKey e1 = matchesInputKey e2 := by
  funext x
  unfold matchesInputKey
  rw [hu, hf, hs]

/-- C8: two `InsertEvents` calls carrying input events with the same
fully non-null `(url, field_id, session_id)` key but different data,
run under the storage engine's writer serialization in either order
against a store with at most one row for that key, both succeed and
leave exactly one row for the key, carrying the later writer's data —
the upsert is a single atomic conditional write of the store step
relation, never a separate read followed by a write. -/
theorem concurrent_upserts_leave_one_row (s : Store) (e1 e2 : Event)
    (ht1 : e1.typ = "input") (ht2 : e2.typ = "input")
    (hu : e1.url = e2.url) (hfe : e1.field_id = e2.field_id)
    (hse : e1.session_id = e2.session_id)
    (hf : e1.field_id.isSome = true) (hsid : e1.session_id.isSome = true)
    (hv1 : ValidateEvent e1 = .ok ()) (hv2 : ValidateEvent e2 = .ok ())
    (hcnt : s.rows.countP (matchesInputKey e1) ≤ 1) :
    ((InsertEvents s [e1]).2 = none
      ∧ (InsertEvents (InsertEvents s [e1]).1 [e2]).2 = none
      ∧ ((InsertEvents (InsertEvents s [e1]).1 [e2]).1).rows.countP
          (matchesInputKey e1) = 1
      ∧ (∀ x ∈ ((InsertEvents (InsertEvents s [e1]).1 [e2]).1).rows,
          matchesInputKey e1 x = true → x.data_json = e2.data))
  ∧ ((InsertEvents s [e2]).2 = none
      ∧ (InsertEvents (InsertEvents s [e2]).1 [e1]).2 = none
      ∧ ((InsertEvents (InsertEvents s [e2]).1 [e1]).1).rows.countP
          (matchesInputKey e1) = 1
      ∧ (∀ x ∈ ((InsertEvents (InsertEvents s [e2]).1 [e1]).1).rows,
          matchesInputKey e1 x = true → x.data_json = e1.data)) := by
  have hkey : matchesInputKey e1 = matchesInputKey e2 :=
    matchesInputKey_congr e1 e2 hu hfe hse
  have hf2 : e2.field_id.isSome = true := by rw [← hfe]; exact hf
  have hs2 : e2.session_id.isSome = true := by rw [← hse]; exact hsid
  constructor
  · obtain ⟨ha1, ha2, _⟩ := upsertInput_step s e1 ht1 hf hsid hv1 hcnt
    obtain ⟨hb1, hb2, hb3⟩ := upsertInput_step (InsertEvents s [e1]).1 e2
      ht2 hf2 hs2 hv2 (by rw [← hkey, ha2])
    refine ⟨ha1, hb1, ?_, ?_⟩
    · rw [hkey]
      exact hb2
    · intro x hx hpx
      exact (hb3 x hx (by rw [← hkey]; exact hpx)).1
  · obtain ⟨ha1, ha2, _⟩ := upsertInput_step s e2 ht2 hf2 hs2 hv2
      (by rw [← hkey]; exact hcnt)
    obtain ⟨hb1, hb2, hb3⟩ := upsertInput_step (InsertEvents s [e2]).1 e1
      ht1 hf hsid hv1 (by rw [hkey, ha2])
    refine ⟨ha1, hb1, ?_, ?_⟩
    · exact hb2
    · intro x hx hpx
      exact (hb3 x hx hpx).1

/-! Lemmas about the ORDER BY implementation. -/

theorem insertDesc_perm (r : Row) (l : List Row) :
    (insertDesc r l).Perm (r :: l) := by
  induction l with
  | nil => exact List.Perm.refl _
  | cons x xs ih =>
    unfold insertDesc
    by_cases h : x.ts_utc < r.ts_utc
    · rw [if_pos h]
    · rw [if_neg h]
      exact (ih.cons x).trans (List.Perm.swap r x xs)

theorem sortDesc_perm (l : List Row) : (sortDesc l).Perm l := by
  induction l with
  | nil => exact List.Perm.refl _
  | cons x xs ih =>
    unfold sortDesc
    exact (insertDesc_perm x (sortDesc xs)).trans (ih.cons x)

theorem insertDesc_sorted (r : Row) (l : List Row)
    (h : l.Pairwise (fun a b => b.ts_utc ≤ a.ts_utc)) :
    (insertDesc r l).Pairwise (fun a b => b.ts_utc ≤ a.ts_utc) := by
  induction l with
  | nil => simp [insertDesc]
  | cons x xs ih =>
    rcases List.pairwise_cons.mp h with ⟨hx, hxs⟩
    unfold insertDesc
    by_cases hc : x.ts_utc < r.ts_utc
    · rw [if_pos hc]
      refine List.pairwise_cons.mpr ⟨?_, h⟩
      intro b hb
      rcases List.mem_cons.mp hb with rfl | hbxs
      · omega
      · have := hx b hbxs
        omega
    · rw [if_neg hc]
      refine List.pairwise_cons.mpr ⟨?_, ih hxs⟩
      intro b hb
      have hb2 := (insertDesc_perm r xs).mem_iff.mp hb
      rcases List.mem_cons.mp hb2 with rfl | hbxs
      · omega
      · exact hx b hbxs

theorem sortDesc_sorted (l : List Row) :
    (sortDesc l).Pairwise (fun a b => b.ts_utc ≤ a.ts_utc) := by
  induction l with
  | nil => simp [sortDesc]
  | cons x xs ih => exact insertDesc_sorted x (sortDesc xs) ih

/-- The WHERE clause is the conjunction of the supplied filters. -/
theorem matchesFilter_iff (f : EventFilter) (r : Row) :
    matchesFilter f r = true ↔
      ((∀ t, f.eventType = some t → r.typ = t)
        ∧ (∀ a, f.sinceUTC = some a → a ≤ r.ts_utc)
        ∧ (∀ b, f.untilUTC = some b → r.ts_utc ≤ b)) := by
  unfold matchesFilter
  cases f.eventType <;> cases f.sinceUTC <;> cases f.untilUTC <;>
    simp [Bool.and_eq_true, and_assoc]

/-- C5 (amended): with a recognized (or absent) type filter,
`GetEvents` returns exactly the stored rows satisfying all supplied
filters conjunctively, ordered by `ts_utc` descending and, when the
filter's limit is positive, truncated to the limit most recent rows;
a non-positive limit at this operation means no truncation at all (the
100 default is applied by the HTTP caller, which never passes a
non-positive limit). -/
theorem getEvents_query_semantics (s : Store) (f : EventFilter)
    (hty : ∀ t, f.eventType = some t → isValidType t = true) :
    GetEvents s f = .ok ((queryRows s f).map rowToEvent)
    ∧ (∀ r ∈ queryRows s f, r ∈ s.rows
        ∧ (∀ t, f.eventType = some t → r.typ = t)
        ∧ (∀ a, f.sinceUTC = some a → a ≤ r.ts_utc)
        ∧ (∀ b, f.untilUTC = some b → r.ts_utc ≤ b))
    ∧ (queryRows s f).Pairwise (fun x y => y.ts_utc ≤ x.ts_utc)
    ∧ (0 < f.limit →
        (queryRows s f).length
          = min f.limit.toNat (s.rows.countP (matchesFilter f)))
    ∧ (0 < f.limit → ∀ r ∈ s.rows, matchesFilter f r = true →
        r ∉ queryRows s f → ∀ x ∈ queryRows s f, r.ts_utc ≤ x.ts_utc)
    ∧ (f.limit ≤ 0 → ∀ r ∈ s.rows, matchesFilter f r = true →
        r ∈ queryRows s f) := by
  have hperm := sortDesc_perm (s.rows.filter (matchesFilter f))
  have hsorted := sortDesc_sorted (s.rows.filter (matchesFilter f))
  have hq : queryRows s f =
      if 0 < f.limit then
        (sortDesc (s.rows.filter (matchesFilter f))).take f.limit.toNat
      else sortDesc (s.rows.filter (matchesFilter f)) := rfl
  have hsub : ∀ r ∈ queryRows s f,
      r ∈ sortDesc (s.rows.filter (matchesFilter f)) := by
    intro r hr
    rw [hq] at hr
    by_cases hlim : 0 < f.limit
    · rw [if_pos hlim] at hr
      exact (List.take_sublist _ _).mem hr
    · rw [if_neg hlim] at hr
      exact hr
  refine ⟨?_, ?_, ?_, ?_, ?_, ?_⟩
  · unfold GetEvents
    cases hev : f.eventType with
    | none => rfl
    | some t => simp [hty t hev]
  · intro r hr
    have hmem := hperm.mem_iff.mp (hsub r hr)
    rcases List.mem_filter.mp hmem with ⟨hrs, hmf⟩
    exact ⟨hrs, (matchesFilter_iff f r).mp hmf⟩
  · rw [hq]
    by_cases hlim : 0 < f.limit
    · rw [if_pos hlim]
      exact List.Pairwise.sublist (List.take_sublist _ _) hsorted
    · rw [if_neg hlim]
      exact hsorted
  · intro hlim
    rw [hq, if_pos hlim, List.length_take, hperm.length_eq,
      List.countP_eq_length_filter]
  · intro hlim r hrs hmf hnot x hx
    rw [hq, if_pos hlim] at hnot hx
    have hrsort : r ∈ sortDesc (s.rows.filter (matchesFilter f)) :=
      hperm.mem_iff.mpr (List.mem_filter.mpr ⟨hrs, hmf⟩)
    have hsplit := List.take_append_drop f.limit.toNat
      (sortDesc (s.rows.filter (matchesFilter f)))
    rw [← hsplit] at hrsort hsorted
    rcases List.mem_append.mp hrsort with hin | hdrop
    · exact absurd hin hnot
    · exact (List.pairwise_append.mp hsorted).2.2 x hx r hdrop
  · intro hlim r hrs hmf
    rw [hq, if_neg (by omega)]
    exact hperm.mem_iff.mpr (List.mem_filter.mpr ⟨hrs, hmf⟩)

/-- One of 101 otherwise identical stored navigate rows. -/
def wideRow (i : Nat) : Row :=
  { id := (i : Int) + 1, ts_utc := 1000 - (i : Int),
    ts_iso := "1970-01-01T00:00:01Z", url := "https://c.example",
    title := none, typ := "navigate", data_json := [], session_id := none,
    field_id := none }

/-- A store holding 101 rows. -/
def wideStore : Store :=
  { rows := (List.range 101).map wideRow, nextId := 102 }

/-- C5 counterexample: at this operation a limit of zero does not mean
the 100 default — `GetEvents` with limit 0 against a 101-row store
returns all 101 rows, not 100. -/
theorem getEvents_limit_zero_counterexample :
    (GetEvents wideStore
        { eventType := none, sinceUTC := none, untilUTC := none,
          limit := 0 }).map List.length = .ok 101
    ∧ (101 : Nat) ≠ 100 :=
  ⟨rfl, by decide⟩

/-- Every row selected by the query comes from the store. -/
theorem queryRows_subset (s : Store) (f : EventFilter) :
    ∀ r ∈ queryRows s f, r ∈ s.rows := by
  intro r hr
  have hperm := sortDesc_perm (s.rows.filter (matchesFilter f))
  have hq : queryRows s f =
      if 0 < f.limit then
        (sortDesc (s.rows.filter (matchesFilter f))).take f.limit.toNat
      else sortDesc (s.rows.filter (matchesFilter f)) := rfl
  have hsort : r ∈ sortDesc (s.rows.filter (matchesFilter f)) := by
    rw [hq] at hr
    by_cases hlim : 0 < f.limit
    · rw [if_pos hlim] at hr
      exact (List.take_sublist _ _).mem hr
    · rw [if_neg hlim] at hr
      exact hr
  exact (List.mem_filter.mp (hperm.mem_iff.mp hsort)).1

/-- C9: the server-assigned id never reaches the wire: every event a
query returns is the conversion of a stored row through `rowToEvent`,
and that conversion is blind to the id column — rows differing only in
id convert to the same wire event, which carries exactly the eight
public fields of the `models.Event` struct. -/
theorem id_never_exposed (s : Store) (f : EventFilter) (l : List Event)
    (h : GetEvents s f = .ok l) :
    (∀ ev ∈ l, ∃ r ∈ s.rows, ev = rowToEvent r)
    ∧ (∀ (r : Row) (n : Int), rowToEvent { r with id := n } = rowToEvent r) := by
  refine ⟨?_, fun r n => rfl⟩
  have hrows : l = (queryRows s f).map rowToEvent := by
    unfold GetEvents at h
    cases hev : f.eventType with
    | none =>
      rw [hev] at h
      exact (Except.ok.inj h).symm
    | some t =>
      rw [hev] at h
      by_cases hval : isValidType t = false
      · simp [hval] at h
      · simp [hval] at h
        exact h.symm
  intro ev hev
  rw [hrows] at hev
  rcases List.mem_map.mp hev with ⟨r, hr, hconv⟩
  exact ⟨r, queryRows_subset s f r hr, hconv.symm⟩

theorem queryGet_head_ne (a b key : String) (rest : List (String × String))
    (h : (a == key) = false) :
    queryGet ((a, b) :: rest) key = queryGet rest key := by
  unfold queryGet
  rw [List.find?_cons_of_neg _ (by simp [h])]

/-- C10: a GET /events request whose type parameter is present but
empty builds the same filter and the same response as one without the
parameter — the empty string is treated as no type filter, and the
request succeeds instead of being rejected as an unrecognized type. -/
theorem empty_type_param_treated_as_absent (s : Store)
    (rest : List (String × String)) (hrest : ∀ kv ∈ rest, kv.1 ≠ "type") :
    handleGetEvents s (("type", "") :: rest) = handleGetEvents s rest
    ∧ (handleGetEvents s [("type", "")]).status = 200 := by
  refine ⟨?_, rfl⟩
  have htype1 : queryGet (("type", "") :: rest) "type" = "" := by
    unfold queryGet
    rw [List.find?_cons_of_pos _ (by simp)]
  have htype2 : queryGet rest "type" = "" := by
    unfold queryGet
    rw [List.find?_eq_none.mpr (by
      intro x hx
      simp [hrest x hx])]
  have hsince := queryGet_head_ne "type" "" "since" rest (by decide)
  have huntil := queryGet_head_ne "type" "" "until" rest (by decide)
  have hlimit := queryGet_head_ne "type" "" "limit" rest (by decide)
  simp only [handleGetEvents, htype1, htype2, hsince, huntil, hlimit]

/-! Concrete fixtures used by the witness theorems. -/

/-- An event with an empty url, rejected by validation. -/
def badEvt : Event :=
  { ts_utc := 7, ts_iso := "1970-01-01T00:00:00.007Z", url := "",
    title := none, typ := "navigate", data := [], session_id := none,
    field_id := none }

/-- A click event without a `field_id`. -/
def clickEvt1 : Event :=
  { ts_utc := 1, ts_iso := "1970-01-01T00:00:00.001Z",
    url := "https://d.example", title := none, typ := "click",
    data := [("button", JsonVal.num 0)], session_id := some "s1",
    field_id := none }

/-- A first input event for the key (url, f1, s1). -/
def inputEvtA : Event :=
  { ts_utc := 10, ts_iso := "1970-01-01T00:00:00.010Z",
    url := "https://e.example", title := some "E", typ := "input",
    data := [("value", JsonVal.str "h")], session_id := some "s1",
    field_id := some "f1" }

/-- A later input event for the same key with new data. -/
def inputEvtB : Event :=
  { ts_utc := 20, ts_iso := "1970-01-01T00:00:00.020Z",
    url := "https://e.example", title := some "E", typ := "input",
    data := [("value", JsonVal.str "hello")], session_id := some "s1",
    field_id := some "f1" }

/-- A store already holding the row of `inputEvtA`. -/
def storeA : Store := { rows := [rowOfEvent 1 inputEvtA], nextId := 2 }

/-- A store already holding a row of content identical to `clickEvt1`. -/
def dupStore : Store := { rows := [rowOfEvent 1 clickEvt1], nextId := 2 }

/-- A filter with a recognized type, a lower bound and a limit. -/
def smallF : EventFilter :=
  { eventType := some "navigate", sinceUTC := some 950, untilUTC := none,
    limit := 10 }

/-- A filter with an unrecognized type. -/
def badFilter : EventFilter :=
  { eventType := some "scroll", sinceUTC := none, untilUTC := none,
    limit := 100 }

/-- The filter of an unparameterized GET /events request. -/
def defFilter : EventFilter :=
  { eventType := none, sinceUTC := none, untilUTC := none, limit := 100 }

/-- Witness for C1 at a concrete batch: one valid click followed by the
empty-url event makes the whole call fail with the store unchanged. -/
theorem insertEvents_allOrNothing_witness :
    ∃ err, InsertEvents emptyStore [clickEvt1, badEvt] = (emptyStore, some err) :=
  (insertEvents_allOrNothing emptyStore [clickEvt1, badEvt]).1
    ⟨badEvt, by simp, fun h => Except.noConfusion h⟩

/-- Witness for C2: the empty-url event is rejected with the url error. -/
theorem validateEvent_spec_witness :
    ValidateEvent badEvt = .error .emptyUrl :=
  ((validateEvent_spec badEvt).2.1).mpr rfl

/-- Witness for C3 at a concrete input: a plain insert into a store
already holding an identical-content row (null `field_id`) appends a
fresh row. -/
theorem writeStrategy_classification_witness :
    InsertEvents dupStore [clickEvt1] =
      ({ rows := dupStore.rows ++ [rowOfEvent dupStore.nextId clickEvt1],
         nextId := dupStore.nextId + 1 }, none) :=
  (writeStrategy_classification clickEvt1 dupStore).2.2.2.2.2.2 rfl rfl
    (by decide)

/-- Witness for C4: upserting `inputEvtB` over the stored `inputEvtA`
succeeds and leaves exactly one row for the key. -/
theorem upsert_conflict_semantics_witness :
    (InsertEvents storeA [inputEvtB]).2 = none
    ∧ (InsertEvents storeA [inputEvtB]).1.rows.countP
        (matchesInputKey inputEvtB) = 1 :=
  (fun h => ⟨h.1, h.2.1⟩)
    (upsert_conflict_semantics.1 storeA inputEvtB (rowOfEvent 1 inputEvtA)
      rfl rfl (List.mem_cons_self _ _) rfl (by decide))

/-- Witness for C5: the limited query returns the 10 most recent of the
51 matching rows. -/
theorem getEvents_query_semantics_witness :
    (queryRows wideStore smallF).length
      = min (10 : Int).toNat (wideStore.rows.countP (matchesFilter smallF)) :=
  (getEvents_query_semantics wideStore smallF
      (fun t ht => by cases ht; decide)).2.2.2.1 (by decide)

/-- Witness for C6: the filter type scroll is rejected. -/
theorem getEvents_error_iff_witness :
    ∃ err, GetEvents emptyStore badFilter = .error err :=
  ((getEvents_error_iff emptyStore badFilter).1).mpr ⟨"scroll", rfl, by decide⟩

/-- Witness for C7: inserting the same click event twice appends two
rows with distinct ids. -/
theorem click_events_always_append_witness :
    (InsertEvents emptyStore [clickEvt1]).2 = none
    ∧ InsertEvents (InsertEvents emptyStore [clickEvt1]).1 [clickEvt1] =
        ({ rows := emptyStore.rows ++
            [rowOfEvent emptyStore.nextId clickEvt1,
              rowOfEvent (emptyStore.nextId + 1) clickEvt1],
           nextId := emptyStore.nextId + 2 }, none)
    ∧ (rowOfEvent emptyStore.nextId clickEvt1).id
        ≠ (rowOfEvent (emptyStore.nextId + 1) clickEvt1).id :=
  click_events_always_append emptyStore clickEvt1 clickEvt1 rfl rfl rfl rfl
    rfl rfl

/-- Witness for C8: the two serializations of the concurrent upserts of
`inputEvtA` and `inputEvtB` both end with one row for the key. -/
theorem concurrent_upserts_leave_one_row_witness :
    ((InsertEvents (InsertEvents emptyStore [inputEvtA]).1 [inputEvtB]).1).rows.countP
        (matchesInputKey inputEvtA) = 1
    ∧ ((InsertEvents (InsertEvents emptyStore [inputEvtB]).1 [inputEvtA]).1).rows.countP
        (matchesInputKey inputEvtA) = 1 :=
  (fun h => ⟨h.1.2.2.1, h.2.2.2.1⟩)
    (concurrent_upserts_leave_one_row emptyStore inputEvtA inputEvtB rfl rfl
      rfl rfl rfl rfl rfl rfl rfl (by decide))

/-- Witness for C9: the conversion to the wire model erases the id. -/
theorem id_never_exposed_witness :
    rowToEvent { wideRow 0 with id := 99 } = rowToEvent (wideRow 0) :=
  (id_never_exposed emptyStore defFilter
      ((queryRows emptyStore defFilter).map rowToEvent) rfl).2 (wideRow 0) 99

/-- Witness for C10 at the concrete request with only an empty type
parameter. -/
theorem empty_type_param_treated_as_absent_witness :
    handleGetEvents emptyStore [("type", "")] = handleGetEvents emptyStore []
    ∧ (handleGetEvents emptyStore [("type", "")]).status = 200 :=
  empty_type_param_treated_as_absent emptyStore []
    (fun kv h => absurd h (List.not_mem_nil kv))

end BrowseTrace
